import Mathlib

/-!
Verification development for the routing-and-aggregation core of the
my-claude-agents repository.

The embedding mirrors three TypeScript sources:
  * `MultiProviderRouter`   (src/router/multi-provider-router.ts)
  * `RoomExecutor`          (src/rooms/room-executor.ts)
  * `KnowledgeSynthesizer`  (src/aggregator/knowledge-synthesizer.ts)

Modelling conventions:
  * JavaScript strings are Lean `String`; character-level scanning is done
    on `String.data` (`List Char`) with structural recursion so that every
    definition evaluates in the kernel.
  * A value that can be `undefined` at runtime (an out-of-range array index,
    `parseInt` returning `NaN`) is modelled with `Option`; `none` stands for
    `undefined`/`NaN`.
  * The filesystem is a finite map from file name to file content; all files
    of interest live in the single shared work directory, so paths are
    modelled by their base names.
  * The provider gateway (`ProviderAdapter` construction plus `execute`) is
    an oracle `Gateway : String → String → Except String String`; a thrown
    error or rejected promise is `.error msg`.  The adapter is constructed
    inside the `try` block of `executeInRoom`, so every adapter failure is
    covered by the `.error` case of the oracle.
  * `Promise.all` over our atomically-modelled executions runs every task
    (side effects of all tasks happen) and rejects with the first rejection
    in task order, otherwise resolves with the results in task order.
-/

/-- Apostrophe character, used inside reason strings produced by the router. -/
def apos : String := String.singleton (Char.ofNat 39)

/-- `m.find?`-based lookup in an association list, mirroring both
`Map.get` and JavaScript object indexing used by the sources. -/
def lookupStr {α : Type} (m : List (String × α)) (k : String) : Option α :=
  (m.find? (fun kv => kv.1 == k)).map Prod.snd

/-- Upsert into an association list, mirroring `Map.set` and
`writeFileSync` overwrite semantics. -/
def upsert {α : Type} (m : List (String × α)) (k : String) (v : α) : List (String × α) :=
  (m.filter (fun kv => kv.1 != k)) ++ [(k, v)]

/-- Boolean test: the first list is a leading segment of the second
(JavaScript `startsWith` on character lists). -/
def beginsWith : List Char → List Char → Bool
  | [], _ => true
  | _ :: _, [] => false
  | a :: as, b :: bs => a == b && beginsWith as bs

/-- Boolean test: `needle` occurs as a contiguous segment of `hay`
(JavaScript `String.prototype.includes`). -/
def containsSeg : List Char → List Char → Bool
  | [], needle => needle.isEmpty
  | h :: hs, needle => beginsWith needle (h :: hs) || containsSeg hs needle

/-- Boolean test: `pat` is a trailing segment of `l`
(JavaScript `String.prototype.endsWith`). -/
def sufB (pat l : List Char) : Bool :=
  beginsWith pat.reverse l.reverse

/-- Replace the first occurrence of `pat` by `rep`
(JavaScript `String.prototype.replace` with a string pattern). -/
def replaceFirst (pat rep : List Char) : List Char → List Char
  | [] => if pat.isEmpty then rep else []
  | c :: cs =>
    if beginsWith pat (c :: cs) then rep ++ (c :: cs).drop pat.length
    else c :: replaceFirst pat rep cs

/-- Split on a separator character, keeping empty segments
(JavaScript `split` with a one-character string separator). -/
def splitChAux (sep : Char) : List Char → List Char → List (List Char)
  | [], acc => [acc.reverse]
  | c :: cs, acc =>
    if c == sep then acc.reverse :: splitChAux sep cs []
    else splitChAux sep cs (c :: acc)

/-- Split on a separator character. -/
def splitCh (sep : Char) (l : List Char) : List (List Char) :=
  splitChAux sep l []

/-- Split on single whitespace characters.  The source splits on the regex
`\s+`; the two agree up to extra empty tokens, which contain no non-empty
keyword and hence never change a substring-presence test. -/
def splitWsAux : List Char → List Char → List (List Char)
  | [], acc => [acc.reverse]
  | c :: cs, acc =>
    if c.isWhitespace then acc.reverse :: splitWsAux cs []
    else splitWsAux cs (c :: acc)

/-- Lower-cased whitespace tokens of a task description
(`text.toLowerCase().split(/\s+/)`). -/
def tokensOf (s : String) : List (List Char) :=
  splitWsAux (s.data.map Char.toLower) []

/-! ## Routing Engine (`MultiProviderRouter`) -/

/-- One `keyword_to_provider` entry of the routing configuration. -/
structure RoutingRule where
  primary : String
  fallback : Option String
  confidence : ℚ
deriving DecidableEq

/-- One `task_type_mapping` entry of the routing configuration. -/
structure TaskTypeMap where
  preferred : String
  secondary : Option String
deriving DecidableEq

/-- The state of a constructed `MultiProviderRouter`: the immutable routing
configuration plus the derived `enabledProviders` snapshot computed by
`validateProviders` at construction.  Association lists keep the insertion
order of the JSON rule tables. -/
structure RouterState where
  keywordRules : List (String × RoutingRule)
  taskTypeMapping : List (String × TaskTypeMap)
  parallelEnabled : Bool
  maxParallelRooms : Nat
  enabledProviders : List String
deriving DecidableEq

/-- A `RouteDecision` produced by the router. -/
structure RouteDecision where
  provider : String
  confidence : ℚ
  reason : String
  fallback : Option String
deriving DecidableEq

/-- A `TaskAnalysis` produced by `analyzeTask`. -/
structure TaskAnalysis where
  keywords : List String
  taskType : String
  routes : List RouteDecision
  parallelizable : Bool
deriving DecidableEq

/-- `isProviderAvailable`: non-null and listed among the enabled providers. -/
def isProviderAvailable (st : RouterState) : Option String → Bool
  | none => false
  | some p => decide (p ∈ st.enabledProviders)

/-- `extractKeywords`: the configured keywords (in rule-table insertion
order) such that some lower-cased whitespace token of the input contains
the keyword as a substring. -/
def extractKeywords (st : RouterState) (text : String) : List String :=
  (st.keywordRules.map Prod.fst).filter
    (fun kw => (tokensOf text).any (fun w => containsSeg w kw.data))

/-- `inferTaskType`: ordered fixed category tests over the keyword list. -/
def inferTaskType (keywords : List String) : String :=
  if keywords.any (fun k => decide (k ∈ ["test", "validate", "verify"])) then "testing"
  else if keywords.any (fun k => decide (k ∈ ["code", "build", "implement"])) then "code_generation"
  else if keywords.any (fun k => decide (k ∈ ["image", "design", "visual"])) then "multimodal"
  else if keywords.any (fun k => decide (k ∈ ["real-time", "news", "current", "latest", "live"])) then "real_time"
  else if keywords.any (fun k => decide (k ∈ ["reason", "analyze", "explain", "plan"])) then "reasoning"
  else "reasoning"

/-- The keyword loop of `determineRoutes`: one route per extracted keyword
whose rule has an available, not-yet-seen primary provider. -/
def keywordRoutes (st : RouterState) : List String → List String → List RouteDecision
  | [], _ => []
  | kw :: rest, seen =>
    match lookupStr st.keywordRules kw with
    | some rule =>
      if isProviderAvailable st (some rule.primary) && !(decide (rule.primary ∈ seen)) then
        { provider := rule.primary
          confidence := rule.confidence
          reason := "Keyword " ++ apos ++ kw ++ apos ++ " matched"
          fallback := if isProviderAvailable st rule.fallback then rule.fallback else none }
          :: keywordRoutes st rest (rule.primary :: seen)
      else keywordRoutes st rest seen
    | none => keywordRoutes st rest seen

/-- The task-type step of `determineRoutes`. -/
def taskTypeRoutes (st : RouterState) (taskType : String) : List RouteDecision :=
  match lookupStr st.taskTypeMapping taskType with
  | some mapping =>
    if isProviderAvailable st (some mapping.preferred) then
      [{ provider := mapping.preferred
         confidence := (0.7 : ℚ)
         reason := "Task type " ++ apos ++ taskType ++ apos ++ " preferred"
         fallback := if isProviderAvailable st mapping.secondary then mapping.secondary else none }]
    else []
  | none => []

/-- The hard-coded final safety-net route of `determineRoutes`. -/
def claudeFallbackRoute : RouteDecision :=
  { provider := "claude", confidence := (0.5 : ℚ), reason := "Default fallback", fallback := none }

/-- `determineRoutes`: keyword routes, else the task-type route, else the
hard-coded `"claude"` fallback when that provider is enabled. -/
def determineRoutes (st : RouterState) (keywords : List String) (taskType : String) :
    List RouteDecision :=
  let r1 := keywordRoutes st keywords []
  let r2 := if r1.isEmpty then taskTypeRoutes st taskType else r1
  if r2.isEmpty && isProviderAvailable st (some "claude") then [claudeFallbackRoute]
  else r2

/-- `analyzeTask`. -/
def analyzeTask (st : RouterState) (taskDescription : String) : TaskAnalysis :=
  let keywords := extractKeywords st taskDescription
  let taskType := inferTaskType keywords
  let routes := determineRoutes st keywords taskType
  { keywords := keywords
    taskType := taskType
    routes := routes
    parallelizable := decide (1 < routes.length) && st.parallelEnabled }

/-- `canRunParallel`. -/
def canRunParallel (st : RouterState) : Bool :=
  decide (1 < st.enabledProviders.length) && st.parallelEnabled

/-- `getMaxParallelRooms`. -/
def getMaxParallelRooms (st : RouterState) : Nat :=
  min st.maxParallelRooms st.enabledProviders.length

/-! ## Execution Context Manager (`RoomExecutor`) -/

/-- A registered room configuration. -/
structure RoomConfig where
  provider : String
  roomPath : String
  model : String
  apiKeyEnv : String
deriving DecidableEq

/-- Status of a `TaskExecution` record. -/
inductive ExecStatus where
  | pending
  | running
  | completed
  | failed
deriving DecidableEq

/-- An `ExecutionRecord` (`TaskExecution` in the source). -/
structure TaskExecution where
  id : String
  provider : String
  task : String
  status : ExecStatus
  startTime : Option Nat
  endTime : Option Nat
  output : Option String
  error : Option String
deriving DecidableEq

/-- A `RoomResult` bundle returned by `executeInRoom`. -/
structure RoomResult where
  roomId : String
  provider : String
  success : Bool
  output : String
  duration : Nat
  outputFile : String
deriving DecidableEq

/-- The mutable state of a `RoomExecutor` plus its work-directory contents
and a logical clock standing for `Date.now()`.  File names are relative to
the shared work directory. -/
structure ExecState where
  rooms : List (String × RoomConfig)
  executions : List (String × TaskExecution)
  files : List (String × String)
  now : Nat
deriving DecidableEq

/-- The provider gateway oracle: `ProviderAdapter` construction followed by
`adapter.execute(prompt)`.  `.error msg` stands for any thrown error or
rejected promise (unknown provider, missing credential, non-2xx response,
transport failure). -/
def Gateway : Type := String → String → Except String String

/-- `registerRoom`: idempotent upsert of a room configuration. -/
def registerRoom (st : ExecState) (provider : String) (roomPath model apiKeyEnv : String) :
    ExecState :=
  { st with rooms := upsert st.rooms provider ⟨provider, roomPath, model, apiKeyEnv⟩ }

/-- `buildIsolatedPrompt`.  The `outputFile` parameter is accepted and
ignored, exactly as in the source template. -/
def buildIsolatedPrompt (task agentPrompt outputFile : String) : String :=
  agentPrompt ++ "\n\n## ISOLATION RULES (CRITICAL)\n- Work autonomously in isolated context\n- Focus ONLY on this specific task\n- Write comprehensive output suitable for aggregation\n- Do NOT attempt to communicate with other agents\n\n## YOUR TASK\n" ++ task ++ "\n\n## OUTPUT INSTRUCTIONS\nProvide a complete, well-structured response that can be aggregated with other agent outputs.\nInclude:\n1. What you did\n2. Key findings or results\n3. Any code, configurations, or artifacts produced\n4. Recommendations or next steps\n"

/-- Rendering of `new Date().toISOString()` at clock value `n`.  The claims
never inspect this text, only its presence. -/
def isoOf (n : Nat) : String := toString n

/-- The fixed-format failure document persisted on a failed execution. -/
def failDoc (provider msg : String) : String :=
  "# Execution Failed\n\nProvider: " ++ provider ++ "\nError: " ++ msg ++ "\n"

/-- `executeInRoom`.  Throws (`.error`) when no room is registered for the
provider; otherwise returns a `RoomResult`, converting a gateway failure
into a failed result rather than an exception.  The two `Date.now()` reads
are modelled as `st.now` (id and start) and `st.now + 1` (end). -/
def executeInRoom (gw : Gateway) (st : ExecState) (provider task agentPrompt : String) :
    Except String (RoomResult × ExecState) :=
  match lookupStr st.rooms provider with
  | none => .error ("No room registered for provider: " ++ provider)
  | some _room =>
    let executionId := provider ++ "-" ++ toString st.now
    let outputFile := "agent-" ++ executionId ++ "-output.md"
    let flagFile := "agent-" ++ executionId ++ "-complete.flag"
    let startTime := st.now
    let prompt := buildIsolatedPrompt task agentPrompt outputFile
    match gw provider prompt with
    | .ok result =>
      let endTime := st.now + 1
      let record : TaskExecution :=
        ⟨executionId, provider, task, .completed, some startTime, some endTime, some result, none⟩
      .ok (⟨executionId, provider, true, result, endTime - startTime, outputFile⟩,
        { st with
          executions := upsert st.executions executionId record
          files := upsert (upsert st.files outputFile result) flagFile (isoOf endTime)
          now := endTime })
    | .error msg =>
      let endTime := st.now + 1
      let record : TaskExecution :=
        ⟨executionId, provider, task, .failed, some startTime, some endTime, none, some msg⟩
      .ok (⟨executionId, provider, false, failDoc provider msg, endTime - startTime, outputFile⟩,
        { st with
          executions := upsert st.executions executionId record
          files := upsert (upsert st.files outputFile (failDoc provider msg)) flagFile "FAILED"
          now := endTime })

/-- One element of the task array passed to `executeParallel`. -/
structure PTask where
  provider : String
  task : String
  agentPrompt : String
deriving DecidableEq

/-- Run every task (all promises are launched, so every execution's side
effects happen), collecting each settled outcome in task order. -/
def runAll (gw : Gateway) : ExecState → List PTask → List (Except String RoomResult) × ExecState
  | st, [] => ([], st)
  | st, t :: ts =>
    match executeInRoom gw st t.provider t.task t.agentPrompt with
    | .ok (r, st1) =>
      let (rs, st2) := runAll gw st1 ts
      (.ok r :: rs, st2)
    | .error e =>
      let (rs, st1) := runAll gw st ts
      (.error e :: rs, st1)

/-- `Promise.all` aggregation: the results in order when every promise
fulfilled, otherwise the first rejection. -/
def seqResults : List (Except String RoomResult) → Except String (List RoomResult)
  | [] => .ok []
  | .ok r :: rest => (seqResults rest).map (fun rs => r :: rs)
  | .error e :: _ => .error e

/-- `executeParallel`. -/
def executeParallel (gw : Gateway) (st : ExecState) (tasks : List PTask) :
    Except String (List RoomResult × ExecState) :=
  let (rs, st1) := runAll gw st tasks
  match seqResults rs with
  | .ok results => .ok (results, st1)
  | .error e => .error e

/-- Projection of an `executeParallel` outcome to what the claims observe:
`none` when the call rejects, otherwise the `(provider, success)` pairs of
the returned results in order. -/
def parallelOutcome (x : Except String (List RoomResult × ExecState)) :
    Option (List (String × Bool)) :=
  match x with
  | .ok (rs, _) => some (rs.map (fun r => (r.provider, r.success)))
  | .error _ => none

/-- `readRoomOutput`: re-reads a persisted output by execution id, note the
`agent-` prefix is prepended here. -/
def readRoomOutput (st : ExecState) (executionId : String) : Option String :=
  lookupStr st.files ("agent-" ++ executionId ++ "-output.md")

/-- `isComplete`: marker-file existence, again prepending `agent-`. -/
def isComplete (st : ExecState) (executionId : String) : Bool :=
  (lookupStr st.files ("agent-" ++ executionId ++ "-complete.flag")).isSome

/-- `getExecution`. -/
def getExecution (st : ExecState) (executionId : String) : Option TaskExecution :=
  lookupStr st.executions executionId

/-- `listOutputs`: names of persisted output files. -/
def listOutputs (st : ExecState) : List String :=
  (st.files.map Prod.fst).filter (fun f => sufB "-output.md".data f.data)

/-- A name matching either work-file pattern targeted by `cleanup`. -/
def isWorkFile (name : String) : Bool :=
  sufB "-output.md".data name.data || sufB "-complete.flag".data name.data

/-- `cleanup`: delete every output and marker file. -/
def cleanup (st : ExecState) : ExecState :=
  { st with files := st.files.filter (fun kv => !(isWorkFile kv.1)) }

/-! ## Synthesis Engine (`KnowledgeSynthesizer`) -/

/-- A `RoomOutput` recovered from storage.  `provider` and `timestamp` are
parsed positionally out of the file name; `none` models the JavaScript
`undefined` index / `NaN` parse result for malformed names. -/
structure RoomOutput where
  provider : Option String
  executionId : String
  content : String
  timestamp : Option Int
deriving DecidableEq

/-- Leading decimal-digit run of a character list; `none` when it is empty. -/
def parseDigitsAux : List Char → Nat → Nat
  | [], acc => acc
  | c :: cs, acc => if c.isDigit then parseDigitsAux cs (acc * 10 + (c.toNat - 48)) else acc

/-- Parse the leading digit run, requiring at least one digit. -/
def parseDigits : List Char → Option Nat
  | [] => none
  | c :: cs => if c.isDigit then some (parseDigitsAux cs (c.toNat - 48)) else none

/-- `parseInt(s, 10)`: skip leading whitespace, optional sign, then the
leading digit run; `none` models `NaN`. -/
def parseIntFrom (s : List Char) : Option Int :=
  match s.dropWhile Char.isWhitespace with
  | [] => none
  | c :: cs =>
    if c == Char.ofNat 43 then (parseDigits cs).map Int.ofNat
    else if c == Char.ofNat 45 then (parseDigits cs).map (fun n => -(n : Int))
    else (parseDigits (c :: cs)).map Int.ofNat

/-- The ascending comparator derived from `(a, b) => a.timestamp - b.timestamp`;
a `NaN` difference is treated as "not smaller", i.e. equal, by `sort`. -/
def tsLt : Option Int → Option Int → Bool
  | some a, some b => decide (a < b)
  | _, _ => false

/-- Stable insertion used to model `Array.prototype.sort` (stable, ascending). -/
def insertByTs (x : RoomOutput) : List RoomOutput → List RoomOutput
  | [] => [x]
  | y :: ys => if tsLt y.timestamp x.timestamp then y :: insertByTs x ys else x :: y :: ys

/-- Stable ascending sort by parsed timestamp. -/
def sortByTs : List RoomOutput → List RoomOutput
  | [] => []
  | x :: xs => insertByTs x (sortByTs xs)

/-- The `RoomOutput` built from one directory entry: strip the first
occurrence of `-output.md`, split the stem on `-`, take segment 1 as the
provider and the parse of segment 2 as the timestamp. -/
def outputOfFile (name content : String) : RoomOutput :=
  let stem := replaceFirst "-output.md".data [] name.data
  let parts := splitCh (Char.ofNat 45) stem
  { provider := (parts.get? 1).map String.mk
    executionId := String.mk stem
    content := content
    timestamp := (parts.get? 2).bind parseIntFrom }

/-- `collectOutputs`: `none` models a missing work directory.  Directory
entries are listed in map order; file names in a directory are unique. -/
def collectOutputs : Option (List (String × String)) → List RoomOutput
  | none => []
  | some entries =>
    sortByTs
      (((entries.filter (fun kv => sufB "-output.md".data kv.1.data)).map
        (fun kv => outputOfFile kv.1 kv.2)))

/-- Rendering of a possibly-`undefined` provider inside a template literal
(JavaScript prints `undefined`). -/
def provStr : Option String → String
  | some s => s
  | none => "undefined"

/-- Upper-casing of a provider name (`provider.toUpperCase()`). -/
def upperStr (s : String) : String :=
  String.mk (s.data.map Char.toUpper)

/-- Characters of a line up to (excluding) the next newline. -/
def takeLine : List Char → List Char
  | [] => []
  | c :: cs => if c == Char.ofNat 10 then [] else c :: takeLine cs

/-- Drop through the next newline (to the start of the following line). -/
def skipLine : List Char → List Char
  | [] => []
  | c :: cs => if c == Char.ofNat 10 then cs else skipLine cs

/-- Largest index `m` with `1 ≤ m < bound` whose character is whitespace text
other than a newline; used for the backtracking of `#\s+(.+)$` when the
whole rest of the text after `#` is whitespace. -/
def largestNonNl (rest : List Char) : Nat → Option Nat
  | 0 => none
  | n + 1 =>
    if n == 0 then none
    else
      match rest.get? n with
      | some c => if c == Char.ofNat 10 then largestNonNl rest n else some n
      | none => largestNonNl rest n

/-- Match of `#\s+(.+)$` (with `/m`) given the text after a line-start `#`:
one or more whitespace characters (greedy, may spill across newlines), then
at least one non-newline character captured up to the end of its line. -/
def titleAt (rest : List Char) : Option (List Char) :=
  let r := (rest.takeWhile Char.isWhitespace).length
  if r == 0 then none
  else if r < rest.length then some (takeLine (rest.drop r))
  else
    match largestNonNl rest r with
    | some m => some (takeLine (rest.drop m))
    | none => none

/-- Scan line starts for the first `/^#\s+(.+)$/m` match; the fuel is the
text length, enough for the per-line scan. -/
def findTitleFuel : Nat → List Char → Option (List Char)
  | 0, _ => none
  | fuel + 1, l =>
    match l with
    | [] => none
    | c :: cs =>
      match (if c == Char.ofNat 35 then titleAt cs else none) with
      | some t => some t
      | none => findTitleFuel fuel (skipLine (c :: cs))

/-- `extractTitle`. -/
def extractTitle (content : String) : Option String :=
  (findTitleFuel content.data.length content.data).map String.mk

/-- `content.split('\n\n')[0]`: the text up to the first blank-line break. -/
def upToDoubleNl : List Char → List Char
  | [] => []
  | c :: cs =>
    if beginsWith [Char.ofNat 10, Char.ofNat 10] (c :: cs) then []
    else c :: upToDoubleNl cs

/-- `generateSummary`.  The source calls `provider.toUpperCase()`, which
throws on `undefined`; `synthesize` guards that case, so inside this
rendering every provider is present and `getD` is never the default. -/
def generateSummary (outputs : List RoomOutput) : String :=
  "# Synthesized Results\n\n" ++
    String.intercalate "\n\n"
      (outputs.map (fun o => "**" ++ upperStr (o.provider.getD "") ++ "**: " ++ String.mk ((upToDoubleNl o.content.data).take 200) ++ "..."))

/-- Newline character. -/
def nlC : Char := Char.ofNat 10

/-- Hash character. -/
def hashC : Char := Char.ofNat 35

/-- Backtick character. -/
def tickC : Char := Char.ofNat 96

/-- JavaScript `String.prototype.trim` on a character list. -/
def trimChars (l : List Char) : List Char :=
  ((l.dropWhile Char.isWhitespace).reverse.dropWhile Char.isWhitespace).reverse

/-- The recommendation-heading alternatives of the regex
`(Recommendations?|Next Steps?|Suggestions?)` in the order a backtracking
engine tries them (each alternation left to right, greedy optional `s`
first), already lower-cased for the `/i` flag. -/
def recKeywords : List (List Char) :=
  ["recommendations".data, "recommendation".data, "next steps".data, "next step".data,
   "suggestions".data, "suggestion".data]

/-- Case-insensitive test that `kw` (lower-case) leads `xs`. -/
def ciBegins (kw xs : List Char) : Bool :=
  ((xs.take kw.length).map Char.toLower) == kw

/-- `true` when the text starts with the lookahead `\n##`. -/
def startsNlHH : List Char → Bool
  | a :: b :: c :: _ => a == nlC && b == hashC && c == hashC
  | _ => false

/-- The lazy capture `([\s\S]*?)(?=\n##|$)`: everything up to the first
`\n##`, or to the end of the text. -/
def takeUntilNlHH : List Char → List Char
  | [] => []
  | c :: cs => if startsNlHH (c :: cs) then [] else c :: takeUntilNlHH cs

/-- Index of the last newline strictly below `bound` in `l`, for the
backtracking of the greedy `\s*` before the mandatory `\n`. -/
def lastNlBelow (l : List Char) : Nat → Option Nat
  | 0 => none
  | n + 1 =>
    match l.get? n with
    | some c => if c == nlC then some n else lastNlBelow l n
    | none => lastNlBelow l n

/-- Continuation `\s*\n([\s\S]*?)(?=\n##|$)` after a matched heading
keyword: the whitespace run must contain a newline, `\s*` backtracks to the
last newline of the run, and the capture starts right after it. -/
def afterKeyword (xs : List Char) : Option (List Char) :=
  let run := xs.takeWhile Char.isWhitespace
  match lastNlBelow xs run.length with
  | some idx => some (takeUntilNlHH (xs.drop (idx + 1)))
  | none => none

/-- Try the heading alternatives in engine order; an alternative whose
continuation fails is backtracked past, as the regex engine does. -/
def tryKeywordList : List (List Char) → List Char → Option (List Char)
  | [], _ => none
  | kw :: rest, xs =>
    if ciBegins kw xs then
      match afterKeyword (xs.drop kw.length) with
      | some body => some body
      | none => tryKeywordList rest xs
    else tryKeywordList rest xs

/-- Full match attempt of
`/##\s*(Recommendations?|Next Steps?|Suggestions?)\s*\n([\s\S]*?)(?=\n##|$)/i`
at the head of the text, returning the second capture group. -/
def matchRecAt : List Char → Option (List Char)
  | a :: b :: rest =>
    if a == hashC && b == hashC then
      tryKeywordList recKeywords (rest.drop (rest.takeWhile Char.isWhitespace).length)
    else none
  | _ => none

/-- Leftmost match of the recommendation-section regex
(`String.prototype.match` without the `g` flag). -/
def findRec : List Char → Option (List Char)
  | [] => matchRecAt []
  | c :: cs =>
    match matchRecAt (c :: cs) with
    | some body => some body
    | none => findRec cs

/-- `true` for lines whose trimmed form begins with `-` or `*`. -/
def isBulletLine (l : List Char) : Bool :=
  match trimChars l with
  | c :: _ => c == Char.ofNat 45 || c == Char.ofNat 42
  | [] => false

/-- `[<provider>] ` prefix plus `line.trim().substring(1).trim()`. -/
def bulletText (provider : String) (l : List Char) : String :=
  "[" ++ provider ++ "] " ++ String.mk (trimChars ((trimChars l).drop 1))

/-- Recommendation lines contributed by one output. -/
def recsOfOutput (o : RoomOutput) : List String :=
  match findRec o.content.data with
  | some body =>
    ((splitCh nlC body).filter isBulletLine).map (bulletText (provStr o.provider))
  | none => []

/-- `extractRecommendations`. -/
def extractRecommendations (outputs : List RoomOutput) : List String :=
  (outputs.map recsOfOutput).flatten

/-- Fenced code blocks `/```[\s\S]*?```/g`: body and text after a closing
fence found from a given position. -/
def scanFenceEnd : List Char → Option (List Char × List Char)
  | [] => none
  | c :: cs =>
    if beginsWith [tickC, tickC, tickC] (c :: cs) then some ([], cs.drop 2)
    else (scanFenceEnd cs).map (fun p => (c :: p.1, p.2))

/-- Successive non-overlapping code-block matches; the fuel (the text
length) dominates the number of scanning steps. -/
def codeBlocksFuel : Nat → List Char → List (List Char)
  | 0, _ => []
  | fuel + 1, l =>
    match l with
    | [] => []
    | c :: cs =>
      if beginsWith [tickC, tickC, tickC] (c :: cs) then
        match scanFenceEnd (cs.drop 2) with
        | some (body, rest) =>
          ([tickC, tickC, tickC] ++ body ++ [tickC, tickC, tickC]) :: codeBlocksFuel fuel rest
        | none => []
      else codeBlocksFuel fuel cs

/-- `extractArtifacts`: blocks longer than 100 characters, previewed to 50. -/
def extractArtifacts (outputs : List RoomOutput) : List String :=
  (outputs.map (fun o =>
    ((codeBlocksFuel o.content.data.length o.content.data).filter
        (fun b => decide (100 < b.length))).map
      (fun b => "[" ++ provStr o.provider ++ "] " ++ String.mk (b.take 50) ++ "..."))).flatten

/-- A per-provider section of the synthesis result. -/
structure SynthSection where
  provider : String
  title : String
  content : String
deriving DecidableEq

/-- Metadata of a synthesis result.  `totalDuration` is `none` when the
JavaScript computation is `NaN` (some timestamp was `NaN`). -/
structure SynthMetadata where
  totalProviders : Nat
  synthesizedAt : String
  totalDuration : Option Int
deriving DecidableEq

/-- A `SynthesisResult`. -/
structure SynthesisResult where
  summary : String
  sections : List SynthSection
  recommendations : List String
  artifacts : List String
  metadata : SynthMetadata
deriving DecidableEq

/-- All-present collection of timestamps; `none` as soon as one is `NaN`. -/
def allTimestamps : List RoomOutput → Option (List Int)
  | [] => some []
  | o :: os => o.timestamp.bind (fun t => (allTimestamps os).map (fun ts => t :: ts))

/-- `Math.max(...timestamps) - Math.min(...timestamps)` over a non-empty
list, `0` for an empty one, `none` for `NaN`. -/
def durationOf (outputs : List RoomOutput) : Option Int :=
  match outputs with
  | [] => some 0
  | _ =>
    (allTimestamps outputs).map
      (fun ts => ts.foldl max (ts.headD 0) - ts.foldl min (ts.headD 0))

/-- `synthesize`.  The source resolves to a result unless a provider is
`undefined`, in which case `generateSummary` throws a `TypeError` on
`toUpperCase`; that throw is the `.error` case. -/
def synthesize (nowIso : String) (outputs : List RoomOutput) : Except String SynthesisResult :=
  if outputs.all (fun o => o.provider.isSome) then
    .ok
      { summary := generateSummary outputs
        sections := outputs.map (fun o =>
          { provider := o.provider.getD ""
            title := (extractTitle o.content).getD (provStr o.provider ++ " Output")
            content := o.content })
        recommendations := extractRecommendations outputs
        artifacts := extractArtifacts outputs
        metadata :=
          { totalProviders := outputs.length
            synthesizedAt := nowIso
            totalDuration := durationOf outputs } }
  else .error "TypeError: Cannot read properties of undefined (reading toUpperCase)"

/-- The consolidated report text written by `writeFinalOutput`. -/
def renderFinal (r : SynthesisResult) : String :=
  r.summary ++ "\n\n" ++ "---\n\n" ++
    String.join (r.sections.map (fun s =>
      "## " ++ s.title ++ " (" ++ upperStr s.provider ++ ")\n\n" ++ s.content ++ "\n\n---\n\n")) ++
    (if r.recommendations.isEmpty then ""
     else "## Aggregated Recommendations\n\n" ++
       String.join (r.recommendations.map (fun rec => "- " ++ rec ++ "\n")) ++ "\n") ++
    "## Synthesis Metadata\n\n" ++
    "- **Providers Used**: " ++ toString r.metadata.totalProviders ++ "\n" ++
    "- **Synthesized At**: " ++ r.metadata.synthesizedAt ++ "\n" ++
    "- **Artifacts Found**: " ++ toString r.artifacts.length ++ "\n"

/-- `writeFinalOutput`: write (overwrite) the fixed file name in the work
directory, returning the path. -/
def writeFinalOutput (r : SynthesisResult) (fs : List (String × String)) :
    String × List (String × String) :=
  ("final-output.md", upsert fs "final-output.md" (renderFinal r))

/-! ## Lemmas about the string scanners -/

theorem beginsWith_iff (p l : List Char) : beginsWith p l = true ↔ ∃ t, l = p ++ t := by
  induction p generalizing l with
  | nil => simp [beginsWith]
  | cons a as ih =>
    cases l with
    | nil => simp [beginsWith]
    | cons b bs =>
      simp only [beginsWith, Bool.and_eq_true, beq_iff_eq]
      constructor
      · rintro ⟨rfl, h⟩
        obtain ⟨t, rfl⟩ := (ih bs).mp h
        exact ⟨t, rfl⟩
      · rintro ⟨t, h⟩
        injection h with h1 h2
        exact ⟨h1.symm, (ih bs).mpr ⟨t, h2⟩⟩

theorem containsSeg_iff (l n : List Char) :
    containsSeg l n = true ↔ ∃ s t, l = s ++ n ++ t := by
  induction l with
  | nil =>
    simp only [containsSeg, List.isEmpty_iff]
    constructor
    · rintro rfl
      exact ⟨[], [], rfl⟩
    · rintro ⟨s, t, h⟩
      rcases List.append_eq_nil.mp h.symm with ⟨h1, h2⟩
      rcases List.append_eq_nil.mp h1 with ⟨_, h3⟩
      exact h3
  | cons c cs ih =>
    simp only [containsSeg, Bool.or_eq_true, beginsWith_iff, ih]
    constructor
    · rintro (⟨t, h⟩ | ⟨s, t, h⟩)
      · exact ⟨[], t, by simpa using h⟩
      · exact ⟨c :: s, t, by simp [h]⟩
    · rintro ⟨s, t, h⟩
      cases s with
      | nil => exact Or.inl ⟨t, by simpa using h⟩
      | cons d ds =>
        right
        injection h with h1 h2
        exact ⟨ds, t, h2⟩

/-! ## Theorems about the Routing Engine -/

theorem keywordRoutes_providers (st : RouterState) (kws : List String) :
    ∀ seen : List String,
      (∀ r ∈ keywordRoutes st kws seen, r.provider ∈ st.enabledProviders ∧ r.provider ∉ seen)
      ∧ ((keywordRoutes st kws seen).map (fun r => r.provider)).Nodup := by
  induction kws with
  | nil =>
    intro seen
    simp [keywordRoutes]
  | cons kw rest ih =>
    intro seen
    simp only [keywordRoutes]
    cases hl : lookupStr st.keywordRules kw with
    | none => exact ih seen
    | some rule =>
      dsimp only
      by_cases hc : (isProviderAvailable st (some rule.primary) && !decide (rule.primary ∈ seen)) = true
      · rw [if_pos hc]
        have hparts := Bool.and_eq_true_iff.mp hc
        have hav : rule.primary ∈ st.enabledProviders := by
          have h0 := hparts.1
          simpa [isProviderAvailable] using h0
        have hns : rule.primary ∉ seen := by
          have h0 := hparts.2
          simpa using h0
        obtain ⟨ihmem, ihnodup⟩ := ih (rule.primary :: seen)
        constructor
        · intro r hr
          rcases List.mem_cons.mp hr with rfl | hr2
          · exact ⟨hav, hns⟩
          · have h3 := ihmem r hr2
            exact ⟨h3.1, fun hm => h3.2 (List.mem_cons_of_mem _ hm)⟩
        · simp only [List.map_cons, List.nodup_cons]
          refine ⟨?_, ihnodup⟩
          intro hmem
          obtain ⟨r, hr, hpr⟩ := List.mem_map.mp hmem
          exact (ihmem r hr).2 (by rw [hpr]; exact List.mem_cons_self _ _)
      · rw [if_neg hc]
        exact ih seen

theorem taskTypeRoutes_cases (st : RouterState) (tt : String) :
    taskTypeRoutes st tt = [] ∨
      ∃ x, taskTypeRoutes st tt = [x] ∧ x.provider ∈ st.enabledProviders := by
  unfold taskTypeRoutes
  cases hl : lookupStr st.taskTypeMapping tt with
  | none => exact Or.inl rfl
  | some mapping =>
    dsimp only
    by_cases hav : isProviderAvailable st (some mapping.preferred) = true
    · rw [if_pos hav]
      refine Or.inr ⟨_, rfl, ?_⟩
      simpa [isProviderAvailable] using hav
    · rw [if_neg hav]
      exact Or.inl rfl

theorem determineRoutes_providers_mem (st : RouterState) (kws : List String) (tt : String) :
    ∀ r ∈ determineRoutes st kws tt, r.provider ∈ st.enabledProviders := by
  intro r hr
  unfold determineRoutes at hr
  cases hkr : keywordRoutes st kws [] with
  | nil =>
    rw [hkr] at hr
    simp only [List.isEmpty_nil, if_true] at hr
    by_cases h2 : ((taskTypeRoutes st tt).isEmpty && isProviderAvailable st (some "claude")) = true
    · rw [if_pos h2] at hr
      have hav := (Bool.and_eq_true_iff.mp h2).2
      rcases List.mem_singleton.mp hr with rfl
      simpa [isProviderAvailable, claudeFallbackRoute] using hav
    · rw [if_neg h2] at hr
      rcases taskTypeRoutes_cases st tt with he | ⟨x, hx, hmem⟩
      · rw [he] at hr
        cases hr
      · rw [hx] at hr
        rcases List.mem_singleton.mp hr with rfl
        exact hmem
  | cons a tl =>
    rw [hkr] at hr
    simp only [List.isEmpty_cons, Bool.false_and] at hr
    rw [if_neg (by simp)] at hr
    exact ((keywordRoutes_providers st kws []).1 r (by rw [hkr]; exact hr)).1

theorem determineRoutes_providers_nodup (st : RouterState) (kws : List String) (tt : String) :
    ((determineRoutes st kws tt).map (fun r => r.provider)).Nodup := by
  unfold determineRoutes
  cases hkr : keywordRoutes st kws [] with
  | nil =>
    simp only [List.isEmpty_nil, if_true]
    by_cases h2 : ((taskTypeRoutes st tt).isEmpty && isProviderAvailable st (some "claude")) = true
    · rw [if_pos h2]
      simp
    · rw [if_neg h2]
      rcases taskTypeRoutes_cases st tt with he | ⟨x, hx, _⟩
      · rw [he]
        simp
      · rw [hx]
        simp
  | cons a tl =>
    simp only [List.isEmpty_cons, Bool.false_and]
    rw [if_neg (by simp)]
    have := (keywordRoutes_providers st kws []).2
    rw [hkr] at this
    exact this

theorem determineRoutes_length_le_one (st : RouterState) (kws : List String) (tt : String)
    (h : st.enabledProviders.length ≤ 1) :
    (determineRoutes st kws tt).length ≤ 1 := by
  cases hR : determineRoutes st kws tt with
  | nil => simp
  | cons a tail =>
    cases tail with
    | nil => simp
    | cons b tail2 =>
      exfalso
      have ha : a.provider ∈ st.enabledProviders :=
        determineRoutes_providers_mem st kws tt a (by rw [hR]; simp)
      have hb : b.provider ∈ st.enabledProviders :=
        determineRoutes_providers_mem st kws tt b (by rw [hR]; simp)
      have hnd := determineRoutes_providers_nodup st kws tt
      rw [hR] at hnd
      simp only [List.map_cons, List.nodup_cons, List.mem_cons, List.mem_map] at hnd
      have hne : a.provider ≠ b.provider := fun he => hnd.1 (Or.inl he)
      cases henb : st.enabledProviders with
      | nil =>
        rw [henb] at ha
        cases ha
      | cons x xs =>
        cases xs with
        | nil =>
          rw [henb] at ha hb
          rcases List.mem_singleton.mp ha with rfl
          exact hne (List.mem_singleton.mp hb).symm
        | cons y ys =>
          rw [henb] at h
          simp at h

/-- C4: for every router state and task description, the route list returned
by `analyzeTask` never contains two `RouteDecision`s with the same provider
name. -/
theorem routes_provider_nodup (st : RouterState) (desc : String) :
    (((analyzeTask st desc).routes).map (fun r => r.provider)).Nodup := by
  unfold analyzeTask
  exact determineRoutes_providers_nodup st _ _

/-- Closed instantiation of `routes_provider_nodup` at a concrete router
state and description. -/
theorem routes_provider_nodup_witness :
    (((analyzeTask
        ⟨[("build", ⟨"openai", some "claude", (0.6 : ℚ)⟩)], [("reasoning", ⟨"claude", none⟩)],
          true, 4, ["claude", "openai"]⟩
        "build and test it").routes).map (fun r => r.provider)).Nodup :=
  routes_provider_nodup _ _

/-- C2: whenever `canRunParallel` is `false`, the `parallelizable` flag of
every task analysis is `false`, regardless of how many routes the analysis
contains. -/
theorem canRunParallel_false_not_parallelizable (st : RouterState) (desc : String)
    (h : canRunParallel st = false) :
    (analyzeTask st desc).parallelizable = false := by
  unfold analyzeTask
  simp only
  cases hpe : st.parallelEnabled with
  | false => simp [hpe]
  | true =>
    unfold canRunParallel at h
    rw [hpe, Bool.and_true] at h
    have hlen : st.enabledProviders.length ≤ 1 := by
      simpa using of_decide_eq_false h
    have hr := determineRoutes_length_le_one st (extractKeywords st desc)
      (inferTaskType (extractKeywords st desc)) hlen
    simp only [Bool.and_eq_false_iff]
    left
    simpa using Nat.not_lt.mpr hr

/-- Closed instantiation of `canRunParallel_false_not_parallelizable`: one
enabled provider, parallel policy on, `canRunParallel` is `false` and the
analysis of a concrete task is not parallelizable. -/
theorem canRunParallel_false_not_parallelizable_witness :
    canRunParallel ⟨[], [], true, 4, ["claude"]⟩ = false ∧
      (analyzeTask ⟨[], [], true, 4, ["claude"]⟩ "analyze this").parallelizable = false :=
  ⟨by decide, canRunParallel_false_not_parallelizable _ "analyze this" (by decide)⟩

/-- C5: when a task description matches no configured keyword, the inferred
task-type yields no enabled preferred provider, and a provider literally
named `claude` is enabled, `analyzeTask` returns exactly one route, with
provider `claude`, confidence `0.5`, reason `Default fallback`, and no
fallback. -/
theorem default_fallback_route (st : RouterState) (desc : String)
    (h1 : extractKeywords st desc = [])
    (h2 : taskTypeRoutes st (inferTaskType (extractKeywords st desc)) = [])
    (h3 : isProviderAvailable st (some "claude") = true) :
    (analyzeTask st desc).routes =
      [{ provider := "claude", confidence := (0.5 : ℚ), reason := "Default fallback",
         fallback := none }] := by
  unfold analyzeTask determineRoutes
  simp only [h1]
  rw [h1] at h2
  simp [keywordRoutes, h2, h3, claudeFallbackRoute]

/-- Closed instantiation of `default_fallback_route` at a concrete router
state (no rules, no mappings, `claude` enabled) and description. -/
theorem default_fallback_route_witness :
    extractKeywords ⟨[], [], false, 1, ["claude"]⟩ "hello there" = [] ∧
      taskTypeRoutes ⟨[], [], false, 1, ["claude"]⟩
        (inferTaskType (extractKeywords ⟨[], [], false, 1, ["claude"]⟩ "hello there")) = [] ∧
      isProviderAvailable ⟨[], [], false, 1, ["claude"]⟩ (some "claude") = true ∧
      (analyzeTask ⟨[], [], false, 1, ["claude"]⟩ "hello there").routes =
        [{ provider := "claude", confidence := (0.5 : ℚ), reason := "Default fallback",
           fallback := none }] :=
  ⟨by decide, by decide, by decide,
    default_fallback_route _ "hello there" (by decide) (by decide) (by decide)⟩

/-- C6: keyword extraction returns exactly the configured keywords that
occur as a substring of some whitespace token of the lower-cased input, and
returns them in the insertion order of the keyword rule table (as a sublist
of its key list), not in input order. -/
theorem extractKeywords_spec (st : RouterState) (desc : String) :
    (∀ kw : String, kw ∈ extractKeywords st desc ↔
      kw ∈ st.keywordRules.map Prod.fst ∧
        ∃ w ∈ tokensOf desc, ∃ s t, w = s ++ kw.data ++ t)
    ∧ (extractKeywords st desc).Sublist (st.keywordRules.map Prod.fst) := by
  constructor
  · intro kw
    unfold extractKeywords
    rw [List.mem_filter]
    constructor
    · rintro ⟨hmem, hp⟩
      refine ⟨hmem, ?_⟩
      obtain ⟨w, hw, hc⟩ := List.any_eq_true.mp hp
      exact ⟨w, hw, (containsSeg_iff w kw.data).mp hc⟩
    · rintro ⟨hmem, w, hw, hsub⟩
      refine ⟨hmem, List.any_eq_true.mpr ⟨w, hw, ?_⟩⟩
      exact (containsSeg_iff w kw.data).mpr hsub
  · exact List.filter_sublist _

/-- Closed instantiation of `extractKeywords_spec` at a concrete router
state and description. -/
theorem extractKeywords_spec_witness :
    (∀ kw : String,
        kw ∈ extractKeywords ⟨[("build", ⟨"openai", none, (0.6 : ℚ)⟩)], [], true, 2, ["openai"]⟩
          "Rebuild it" ↔
          kw ∈ [("build", (⟨"openai", none, (0.6 : ℚ)⟩ : RoutingRule))].map Prod.fst ∧
            ∃ w ∈ tokensOf "Rebuild it", ∃ s t, w = s ++ kw.data ++ t) ∧
      (extractKeywords ⟨[("build", ⟨"openai", none, (0.6 : ℚ)⟩)], [], true, 2, ["openai"]⟩
        "Rebuild it").Sublist
        ([("build", (⟨"openai", none, (0.6 : ℚ)⟩ : RoutingRule))].map Prod.fst) :=
  extractKeywords_spec _ _

/-! ## Lemmas about the association-list state -/

theorem lookup_upsert_self {α : Type} (m : List (String × α)) (k : String) (v : α) :
    lookupStr (upsert m k v) k = some v := by
  unfold upsert lookupStr
  induction m with
  | nil => simp
  | cons a as ih =>
    by_cases h : a.1 = k
    · simp only [List.filter_cons, h, bne_self_eq_false, Bool.false_eq_true, if_false]
      exact ih
    · simpa [List.filter_cons, List.find?_cons, h] using ih

theorem lookup_upsert_ne {α : Type} (m : List (String × α)) (k k' : String) (v : α)
    (h : k' ≠ k) :
    lookupStr (upsert m k v) k' = lookupStr m k' := by
  have hkk : (k == k') = false := by
    simpa using Ne.symm h
  unfold upsert lookupStr
  induction m with
  | nil =>
    simp only [List.filter_nil, List.nil_append, List.find?_cons]
    rw [hkk]
  | cons a as ih =>
    by_cases h1 : a.1 = k
    · have hc : (a.1 == k') = false := by
        rw [h1]
        exact hkk
      rw [List.filter_cons, if_neg (by simp [h1]), List.find?_cons]
      rw [hc]
      exact ih
    · rw [List.filter_cons, if_pos (by simp [h1]), List.cons_append,
        List.find?_cons, List.find?_cons]
      by_cases h2 : a.1 = k'
      · rw [show (a.1 == k') = true from by simp [h2]]
      · rw [show (a.1 == k') = false from by simp [h2]]
        exact ih

/-! ## Lemmas about `executeInRoom` and `executeParallel` -/

/-- The `RoomResult` produced by a registered execution whose gateway call
settled as `e`. -/
def roomResultOf (p : String) (st : ExecState) : Except String String → RoomResult
  | .ok out =>
    ⟨p ++ "-" ++ toString st.now, p, true, out, st.now + 1 - st.now,
      "agent-" ++ (p ++ "-" ++ toString st.now) ++ "-output.md"⟩
  | .error msg =>
    ⟨p ++ "-" ++ toString st.now, p, false, failDoc p msg, st.now + 1 - st.now,
      "agent-" ++ (p ++ "-" ++ toString st.now) ++ "-output.md"⟩

/-- The state after a registered execution whose gateway call settled as `e`. -/
def stateAfter (p task : String) (st : ExecState) : Except String String → ExecState
  | .ok out =>
    { st with
      executions := upsert st.executions (p ++ "-" ++ toString st.now)
        ⟨p ++ "-" ++ toString st.now, p, task, .completed, some st.now, some (st.now + 1),
          some out, none⟩
      files := upsert
        (upsert st.files ("agent-" ++ (p ++ "-" ++ toString st.now) ++ "-output.md") out)
        ("agent-" ++ (p ++ "-" ++ toString st.now) ++ "-complete.flag") (isoOf (st.now + 1))
      now := st.now + 1 }
  | .error msg =>
    { st with
      executions := upsert st.executions (p ++ "-" ++ toString st.now)
        ⟨p ++ "-" ++ toString st.now, p, task, .failed, some st.now, some (st.now + 1),
          none, some msg⟩
      files := upsert
        (upsert st.files ("agent-" ++ (p ++ "-" ++ toString st.now) ++ "-output.md")
          (failDoc p msg))
        ("agent-" ++ (p ++ "-" ++ toString st.now) ++ "-complete.flag") "FAILED"
      now := st.now + 1 }

theorem stateAfter_rooms (p task : String) (st : ExecState) (e : Except String String) :
    (stateAfter p task st e).rooms = st.rooms := by
  cases e <;> rfl

theorem roomResultOf_provider (p : String) (st : ExecState) (e : Except String String) :
    (roomResultOf p st e).provider = p := by
  cases e <;> rfl

/-- `true` exactly when an `Except` settled successfully. -/
def exOk {ε α : Type} : Except ε α → Bool
  | .ok _ => true
  | .error _ => false

theorem roomResultOf_success (p : String) (st : ExecState) (e : Except String String) :
    (roomResultOf p st e).success = exOk e := by
  cases e <;> rfl

/-- A registered execution always returns normally, with the result and
state determined by how the gateway call settles. -/
theorem executeInRoom_spec (gw : Gateway) (st : ExecState) (p task ap : String)
    (rc : RoomConfig) (hroom : lookupStr st.rooms p = some rc) :
    executeInRoom gw st p task ap =
      .ok (roomResultOf p st (gw p (buildIsolatedPrompt task ap "")),
           stateAfter p task st (gw p (buildIsolatedPrompt task ap ""))) := by
  unfold executeInRoom
  rw [hroom]
  dsimp only
  cases hg : gw p (buildIsolatedPrompt task ap
      ("agent-" ++ (p ++ "-" ++ toString st.now) ++ "-output.md")) with
  | ok out =>
    have hg2 : gw p (buildIsolatedPrompt task ap "") = .ok out := hg
    rw [hg2]
    rfl
  | error msg =>
    have hg2 : gw p (buildIsolatedPrompt task ap "") = .error msg := hg
    rw [hg2]
    rfl

/-- A gateway that always succeeds. -/
def gwAlwaysOk : Gateway := fun _ _ => .ok "done"

/-- A concrete executor state with rooms registered for `claude` and
`gemini` only. -/
def twoRoomState : ExecState :=
  { rooms := [("claude", ⟨"claude", "rp", "m", "K"⟩), ("gemini", ⟨"gemini", "rp", "m", "K"⟩)]
    executions := []
    files := []
    now := 0 }

/-- C1 counterexample: three tasks whose second provider (`openai`) has no
registered room while the first and third do; `executeParallel` rejects
with the unregistered-room error instead of resolving with three results,
because the `async` throw of `executeInRoom` becomes a rejected promise and
`Promise.all` short-circuits to that rejection. -/
theorem executeParallel_rejects_on_unregistered_room :
    executeParallel gwAlwaysOk twoRoomState
        [⟨"claude", "t1", "a1"⟩, ⟨"openai", "t2", "a2"⟩, ⟨"gemini", "t3", "a3"⟩] =
      .error "No room registered for provider: openai" ∧
    parallelOutcome (executeParallel gwAlwaysOk twoRoomState
        [⟨"claude", "t1", "a1"⟩, ⟨"openai", "t2", "a2"⟩, ⟨"gemini", "t3", "a3"⟩]) = none := by
  constructor
  · rfl
  · rfl

/-- C1 (amended): when every task's provider has a registered room,
`executeParallel` resolves with exactly one result per task, in input
order; a task whose gateway call rejects is marked failed while the other
tasks are marked according to their own gateway outcomes, independent of
it. -/
theorem executeParallel_settles_per_task (gw : Gateway) (st : ExecState)
    (t1 t2 t3 : PTask) (rc1 rc2 rc3 : RoomConfig) (e1 e3 : Except String String) (msg : String)
    (h1 : lookupStr st.rooms t1.provider = some rc1)
    (h2 : lookupStr st.rooms t2.provider = some rc2)
    (h3 : lookupStr st.rooms t3.provider = some rc3)
    (hg1 : gw t1.provider (buildIsolatedPrompt t1.task t1.agentPrompt "") = e1)
    (hg2 : gw t2.provider (buildIsolatedPrompt t2.task t2.agentPrompt "") = .error msg)
    (hg3 : gw t3.provider (buildIsolatedPrompt t3.task t3.agentPrompt "") = e3) :
    parallelOutcome (executeParallel gw st [t1, t2, t3]) =
      some [(t1.provider, exOk e1), (t2.provider, false), (t3.provider, exOk e3)] := by
  unfold executeParallel
  simp only [runAll]
  rw [executeInRoom_spec gw st t1.provider t1.task t1.agentPrompt rc1 h1, hg1]
  dsimp only
  rw [executeInRoom_spec gw _ t2.provider t2.task t2.agentPrompt rc2
    (by rw [stateAfter_rooms]; exact h2), hg2]
  dsimp only
  rw [executeInRoom_spec gw _ t3.provider t3.task t3.agentPrompt rc3
    (by rw [stateAfter_rooms, stateAfter_rooms]; exact h3), hg3]
  dsimp only
  simp only [seqResults, Except.map, parallelOutcome, List.map_cons, List.map_nil,
    roomResultOf_provider, roomResultOf_success]
  rfl

/-- A gateway that rejects exactly for provider `openai`. -/
def gwFailOpenai : Gateway :=
  fun p _ => if p == "openai" then .error "boom" else .ok "done"

/-- A concrete executor state with rooms registered for `claude`, `openai`
and `gemini`. -/
def threeRoomState : ExecState :=
  { rooms := [("claude", ⟨"claude", "rp", "m", "K"⟩), ("openai", ⟨"openai", "rp", "m", "K"⟩),
      ("gemini", ⟨"gemini", "rp", "m", "K"⟩)]
    executions := []
    files := []
    now := 0 }

/-- Closed instantiation of `executeParallel_settles_per_task`: the second
task's gateway call rejects, the call still resolves with three results in
input order, the second failed and the others successful. -/
theorem executeParallel_settles_per_task_witness :
    parallelOutcome (executeParallel gwFailOpenai threeRoomState
        [⟨"claude", "t1", "a1"⟩, ⟨"openai", "t2", "a2"⟩, ⟨"gemini", "t3", "a3"⟩]) =
      some [("claude", true), ("openai", false), ("gemini", true)] :=
  executeParallel_settles_per_task gwFailOpenai threeRoomState
    ⟨"claude", "t1", "a1"⟩ ⟨"openai", "t2", "a2"⟩ ⟨"gemini", "t3", "a3"⟩
    ⟨"claude", "rp", "m", "K"⟩ ⟨"openai", "rp", "m", "K"⟩ ⟨"gemini", "rp", "m", "K"⟩
    (.ok "done") (.ok "done") "boom" rfl rfl rfl rfl rfl rfl

theorem outName_ne_flagName (eid : String) :
    ("agent-" ++ eid ++ "-output.md") ≠ ("agent-" ++ eid ++ "-complete.flag") := by
  intro he
  have hl := congrArg String.length he
  rw [String.length_append, String.length_append, String.length_append,
    String.length_append] at hl
  have h2 := Nat.add_left_cancel hl
  exact absurd h2 (by decide)

/-- C3: an execution with a registered room whose gateway call rejects
returns normally with `success = false` and the failure document as output;
the failure document is persisted to the output file, the literal `FAILED`
to the marker file, and the stored execution record is `failed` with an end
timestamp. -/
theorem executeInRoom_contains_gateway_failure (gw : Gateway) (st : ExecState)
    (p task ap msg : String) (rc : RoomConfig)
    (hroom : lookupStr st.rooms p = some rc)
    (hgw : gw p (buildIsolatedPrompt task ap "") = .error msg) :
    ∃ res st2, executeInRoom gw st p task ap = .ok (res, st2)
      ∧ res.success = false
      ∧ res.output = failDoc p msg
      ∧ lookupStr st2.files ("agent-" ++ res.roomId ++ "-output.md") = some (failDoc p msg)
      ∧ lookupStr st2.files ("agent-" ++ res.roomId ++ "-complete.flag") = some "FAILED"
      ∧ getExecution st2 res.roomId =
          some ⟨res.roomId, p, task, .failed, some st.now, some (st.now + 1), none, some msg⟩ := by
  refine ⟨roomResultOf p st (.error msg), stateAfter p task st (.error msg),
    ?_, rfl, rfl, ?_, ?_, ?_⟩
  · rw [executeInRoom_spec gw st p task ap rc hroom, hgw]
  · show lookupStr
      (upsert (upsert st.files ("agent-" ++ (p ++ "-" ++ toString st.now) ++ "-output.md")
        (failDoc p msg))
        ("agent-" ++ (p ++ "-" ++ toString st.now) ++ "-complete.flag") "FAILED")
      ("agent-" ++ (p ++ "-" ++ toString st.now) ++ "-output.md") = some (failDoc p msg)
    rw [lookup_upsert_ne _ _ _ _ (outName_ne_flagName (p ++ "-" ++ toString st.now))]
    exact lookup_upsert_self _ _ _
  · exact lookup_upsert_self _ _ _
  · exact lookup_upsert_self _ _ _

/-- Closed instantiation of `executeInRoom_contains_gateway_failure` at a
concrete state and failing gateway. -/
theorem executeInRoom_contains_gateway_failure_witness :
    ∃ res st2,
      executeInRoom gwFailOpenai threeRoomState "openai" "t2" "a2" = .ok (res, st2)
        ∧ res.success = false
        ∧ res.output = failDoc "openai" "boom"
        ∧ lookupStr st2.files ("agent-" ++ res.roomId ++ "-output.md") =
            some (failDoc "openai" "boom")
        ∧ lookupStr st2.files ("agent-" ++ res.roomId ++ "-complete.flag") = some "FAILED"
        ∧ getExecution st2 res.roomId =
            some ⟨res.roomId, "openai", "t2", .failed, some threeRoomState.now,
              some (threeRoomState.now + 1), none, some "boom"⟩ :=
  executeInRoom_contains_gateway_failure gwFailOpenai threeRoomState "openai" "t2" "a2"
    "boom" ⟨"openai", "rp", "m", "K"⟩ rfl rfl

/-! ## Theorems about the Synthesis Engine -/

/-- C7: a work directory holding exactly the file
`agent-openai-1700000000000-output.md` collects to exactly one `RoomOutput`
with provider `openai`, timestamp `1700000000000`, and the file's content. -/
theorem collectOutputs_roundtrip (c : String) :
    collectOutputs (some [("agent-openai-1700000000000-output.md", c)]) =
      [⟨some "openai", "agent-openai-1700000000000", c, some 1700000000000⟩] := rfl

/-- Closed instantiation of `collectOutputs_roundtrip`. -/
theorem collectOutputs_roundtrip_witness :
    collectOutputs (some [("agent-openai-1700000000000-output.md", "CONTENT")]) =
      [⟨some "openai", "agent-openai-1700000000000", "CONTENT", some 1700000000000⟩] :=
  collectOutputs_roundtrip "CONTENT"

theorem mem_insertByTs (x a : RoomOutput) (l : List RoomOutput) :
    a ∈ insertByTs x l ↔ a = x ∨ a ∈ l := by
  induction l with
  | nil => simp [insertByTs]
  | cons y ys ih =>
    unfold insertByTs
    by_cases h : tsLt y.timestamp x.timestamp = true
    · rw [if_pos h]
      simp only [List.mem_cons, ih]
      tauto
    · rw [if_neg h]
      simp only [List.mem_cons]

theorem mem_sortByTs (a : RoomOutput) (l : List RoomOutput) :
    a ∈ sortByTs l ↔ a ∈ l := by
  induction l with
  | nil => simp [sortByTs]
  | cons x xs ih =>
    unfold sortByTs
    rw [mem_insertByTs, ih, List.mem_cons]

/-- A minimal concrete `SynthesisResult`. -/
def synthZero : SynthesisResult :=
  { summary := "s"
    sections := []
    recommendations := []
    artifacts := []
    metadata := ⟨0, "t", some 0⟩ }

/-- C9 counterexample: after `writeFinalOutput` writes `final-output.md`
into an empty work directory, `collectOutputs` does pick the report up (it
filters only on the `-output.md` suffix), but the recovered entry has stem
`final`, an `undefined` provider (`none`, not `"output"`) and a `NaN`
timestamp: `"final-output.md".replace("-output.md", "")` is `"final"`,
whose dash-split has no second or third segment. -/
theorem collectOutputs_final_report_counterexample :
    ((collectOutputs (some (writeFinalOutput synthZero []).2)).map
        (fun o => (o.provider, o.executionId, o.timestamp))) = [(none, "final", none)]
    ∧ ∀ o ∈ collectOutputs (some (writeFinalOutput synthZero []).2),
        ¬ o.provider = some "output" := by
  constructor
  · rfl
  · intro o ho
    have hmap : (o.provider, o.executionId, o.timestamp) ∈
        ((collectOutputs (some (writeFinalOutput synthZero []).2)).map
          (fun o => (o.provider, o.executionId, o.timestamp))) :=
      List.mem_map_of_mem _ ho
    rw [show ((collectOutputs (some (writeFinalOutput synthZero []).2)).map
        (fun o => (o.provider, o.executionId, o.timestamp))) =
          [((none : Option String), "final", (none : Option Int))] from rfl] at hmap
    intro hp
    rw [hp] at hmap
    simp at hmap

theorem sufB_append (pat l : List Char) : sufB pat (l ++ pat) = true := by
  unfold sufB
  rw [List.reverse_append]
  exact (beginsWith_iff _ _).mpr ⟨l.reverse, rfl⟩

theorem mem_upsert_of_ne {α : Type} (m : List (String × α)) (k : String) (v : α)
    (k' : String) (v' : α) (hne : k ≠ k') (hmem : (k, v) ∈ m) :
    (k, v) ∈ upsert m k' v' := by
  unfold upsert
  exact List.mem_append_left _ (List.mem_filter.mpr ⟨hmem, by simpa using hne⟩)

theorem self_mem_upsert {α : Type} (m : List (String × α)) (k : String) (v : α) :
    (k, v) ∈ upsert m k v := by
  unfold upsert
  exact List.mem_append_right _ (List.mem_singleton.mpr rfl)

/-- C9 (amended): `collectOutputs` selects files solely by the
`-output.md` suffix, so after any `writeFinalOutput` the consolidated
report is collected as a `RoomOutput` with execution id `final`, an
`undefined` provider and a `NaN` timestamp, and a later synthesis run
consumes it as an input. -/
theorem collectOutputs_includes_final_report (r : SynthesisResult)
    (fs : List (String × String)) :
    ∃ o ∈ collectOutputs (some (writeFinalOutput r fs).2),
      o.executionId = "final" ∧ o.provider = none ∧ o.timestamp = none
        ∧ o.content = renderFinal r := by
  refine ⟨outputOfFile "final-output.md" (renderFinal r), ?_, rfl, rfl, rfl, rfl⟩
  show outputOfFile "final-output.md" (renderFinal r) ∈
    sortByTs ((((upsert fs "final-output.md" (renderFinal r)).filter
      (fun kv => sufB "-output.md".data kv.1.data)).map (fun kv => outputOfFile kv.1 kv.2)))
  rw [mem_sortByTs]
  refine List.mem_map.mpr ⟨("final-output.md", renderFinal r), ?_, rfl⟩
  refine List.mem_filter.mpr ⟨self_mem_upsert fs "final-output.md" (renderFinal r), rfl⟩

/-- Closed instantiation of `collectOutputs_includes_final_report`. -/
theorem collectOutputs_includes_final_report_witness :
    ∃ o ∈ collectOutputs (some (writeFinalOutput synthZero []).2),
      o.executionId = "final" ∧ o.provider = none ∧ o.timestamp = none
        ∧ o.content = renderFinal synthZero :=
  collectOutputs_includes_final_report synthZero []

/-- C8: synthesizing two outputs, a `claude` one whose content is a
`## Recommendations` section with bullets `- do X` and `- do Y`, and an
`openai` one whose content has no recommendation-family section, yields the
aggregated recommendations `["[claude] do X", "[claude] do Y"]` in that
order. -/
theorem synthesize_aggregates_recommendations (nowIso eid1 eid2 c2 : String)
    (t1 t2 : Option Int) (h : findRec c2.data = none) :
    ((synthesize nowIso
        [⟨some "claude", eid1, "## Recommendations\n- do X\n- do Y", t1⟩,
         ⟨some "openai", eid2, c2, t2⟩]).toOption.map
      (fun r => r.recommendations)) = some ["[claude] do X", "[claude] do Y"] := by
  have h2 : recsOfOutput ⟨some "openai", eid2, c2, t2⟩ = [] := by
    unfold recsOfOutput
    rw [h]
  show some (extractRecommendations
    [⟨some "claude", eid1, "## Recommendations\n- do X\n- do Y", t1⟩,
     ⟨some "openai", eid2, c2, t2⟩]) = some ["[claude] do X", "[claude] do Y"]
  unfold extractRecommendations
  rw [List.map_cons, List.map_cons, List.map_nil, h2]
  rfl

/-- Closed instantiation of `synthesize_aggregates_recommendations` with a
concrete recommendation-free second output. -/
theorem synthesize_aggregates_recommendations_witness :
    ((synthesize "2026-01-01" [⟨some "claude", "e1", "## Recommendations\n- do X\n- do Y", some 1⟩,
        ⟨some "openai", "e2", "# Report\n\nNothing here", some 2⟩]).toOption.map
      (fun r => r.recommendations)) = some ["[claude] do X", "[claude] do Y"] :=
  synthesize_aggregates_recommendations "2026-01-01" "e1" "e2" "# Report\n\nNothing here"
    (some 1) (some 2) rfl

/-! ## Theorems relating executor storage and synthesizer collection -/

theorem replaceFirst_append_of_not_before (pat rep s : List Char) (hpat : pat ≠ [])
    (hocc : ∀ q, q < s.length → beginsWith pat ((s ++ pat).drop q) = false) :
    replaceFirst pat rep (s ++ pat) = s ++ rep := by
  induction s with
  | nil =>
    cases pat with
    | nil => exact absurd rfl hpat
    | cons c cs =>
      show replaceFirst (c :: cs) rep ([] ++ c :: cs) = [] ++ rep
      rw [List.nil_append, List.nil_append]
      unfold replaceFirst
      rw [if_pos ((beginsWith_iff (c :: cs) (c :: cs)).mpr ⟨[], by simp⟩)]
      simp
  | cons c s' ih =>
    show replaceFirst pat rep (c :: (s' ++ pat)) = c :: (s' ++ rep)
    have h0 : beginsWith pat (c :: (s' ++ pat)) = false := by
      have hq := hocc 0 (by simp)
      simpa using hq
    unfold replaceFirst
    rw [if_neg (by simp [h0])]
    have ih2 := ih (fun q hq => by
      have hq2 := hocc (q + 1) (by simpa using Nat.succ_lt_succ hq)
      simpa using hq2)
    rw [ih2]

theorem ne_of_length_ne {s t : String} (h : s.length ≠ t.length) : s ≠ t :=
  fun he => h (congrArg String.length he)

theorem stateAfter_files (p task : String) (st : ExecState) (e : Except String String) :
    ∃ content flagContent,
      (stateAfter p task st e).files =
        upsert
          (upsert st.files ("agent-" ++ (p ++ "-" ++ toString st.now) ++ "-output.md") content)
          ("agent-" ++ (p ++ "-" ++ toString st.now) ++ "-complete.flag") flagContent := by
  cases e with
  | ok out => exact ⟨out, isoOf (st.now + 1), rfl⟩
  | error msg => exact ⟨failDoc p msg, "FAILED", rfl⟩

theorem roomResultOf_roomId (p : String) (st : ExecState) (e : Except String String) :
    (roomResultOf p st e).roomId = p ++ "-" ++ toString st.now := by
  cases e <;> rfl

theorem lenAgent : ("agent-" : String).length = 6 := rfl

theorem lenOut : ("-output.md" : String).length = 10 := rfl

theorem lenFlag : ("-complete.flag" : String).length = 14 := rfl

/-- C10: after `executeInRoom` persists its output for provider `p` at
clock `t`, the execution id recovered by `collectOutputs` is the full file
stem `agent-<p>-<t>`, not the executor's id `<p>-<t>`; feeding the
recovered id back into `readRoomOutput` yields `none` and into `isComplete`
yields `false`, because both prepend `agent-` again. -/
theorem collected_id_mismatch (gw : Gateway) (st : ExecState) (p task ap : String)
    (rc : RoomConfig)
    (hroom : lookupStr st.rooms p = some rc)
    (hocc : ∀ q, q < ("agent-" ++ (p ++ "-" ++ toString st.now)).length →
        beginsWith "-output.md".data
          ((("agent-" ++ (p ++ "-" ++ toString st.now)).data ++ "-output.md".data).drop q) =
          false)
    (hno1 : lookupStr st.files
        ("agent-" ++ ("agent-" ++ (p ++ "-" ++ toString st.now)) ++ "-output.md") = none)
    (hno2 : lookupStr st.files
        ("agent-" ++ ("agent-" ++ (p ++ "-" ++ toString st.now)) ++ "-complete.flag") = none) :
    ∃ res st2, executeInRoom gw st p task ap = .ok (res, st2)
      ∧ res.roomId = p ++ "-" ++ toString st.now
      ∧ (∃ o ∈ collectOutputs (some st2.files),
          o.executionId = "agent-" ++ res.roomId ∧ o.executionId ≠ res.roomId)
      ∧ readRoomOutput st2 ("agent-" ++ res.roomId) = none
      ∧ isComplete st2 ("agent-" ++ res.roomId) = false := by
  obtain ⟨content, flagContent, hfiles⟩ :=
    stateAfter_files p task st (gw p (buildIsolatedPrompt task ap ""))
  refine ⟨roomResultOf p st (gw p (buildIsolatedPrompt task ap "")),
    stateAfter p task st (gw p (buildIsolatedPrompt task ap "")),
    executeInRoom_spec gw st p task ap rc hroom, roomResultOf_roomId p st _, ?_, ?_, ?_⟩
  · rw [roomResultOf_roomId]
    refine ⟨outputOfFile ((("agent-" ++ (p ++ "-" ++ toString st.now))) ++ "-output.md")
      content, ?_, ?_, ?_⟩
    · show _ ∈ collectOutputs (some (stateAfter p task st _).files)
      rw [hfiles]
      show _ ∈ sortByTs _
      rw [mem_sortByTs]
      refine List.mem_map.mpr
        ⟨(("agent-" ++ (p ++ "-" ++ toString st.now)) ++ "-output.md", content), ?_, rfl⟩
      refine List.mem_filter.mpr ⟨?_, ?_⟩
      · exact mem_upsert_of_ne _ _ _ _ _
          (outName_ne_flagName (p ++ "-" ++ toString st.now)) (self_mem_upsert _ _ _)
      · show sufB "-output.md".data
          ((("agent-" ++ (p ++ "-" ++ toString st.now)) ++ "-output.md")).data = true
        rw [String.data_append]
        exact sufB_append _ _
    · show String.mk (replaceFirst "-output.md".data []
        ((("agent-" ++ (p ++ "-" ++ toString st.now)) ++ "-output.md")).data) =
        "agent-" ++ (p ++ "-" ++ toString st.now)
      rw [String.data_append,
        replaceFirst_append_of_not_before "-output.md".data []
          (("agent-" ++ (p ++ "-" ++ toString st.now)).data) (by decide) hocc,
        List.append_nil]
    · show String.mk (replaceFirst "-output.md".data []
        ((("agent-" ++ (p ++ "-" ++ toString st.now)) ++ "-output.md")).data) ≠
        (p ++ "-" ++ toString st.now)
      rw [String.data_append,
        replaceFirst_append_of_not_before "-output.md".data []
          (("agent-" ++ (p ++ "-" ++ toString st.now)).data) (by decide) hocc,
        List.append_nil]
      show ("agent-" ++ (p ++ "-" ++ toString st.now)) ≠ (p ++ "-" ++ toString st.now)
      refine ne_of_length_ne ?_
      rw [String.length_append, lenAgent]
      omega
  · rw [roomResultOf_roomId]
    show lookupStr (stateAfter p task st _).files
      ("agent-" ++ ("agent-" ++ (p ++ "-" ++ toString st.now)) ++ "-output.md") = none
    rw [hfiles]
    rw [lookup_upsert_ne _ _ _ _ (ne_of_length_ne (by
      simp only [String.length_append, lenAgent, lenOut, lenFlag]
      omega))]
    rw [lookup_upsert_ne _ _ _ _ (ne_of_length_ne (by
      simp only [String.length_append, lenAgent, lenOut, lenFlag]
      omega))]
    exact hno1
  · rw [roomResultOf_roomId]
    show (lookupStr (stateAfter p task st _).files
      ("agent-" ++ ("agent-" ++ (p ++ "-" ++ toString st.now)) ++ "-complete.flag")).isSome =
      false
    rw [hfiles]
    rw [lookup_upsert_ne _ _ _ _ (ne_of_length_ne (by
      simp only [String.length_append, lenAgent, lenOut, lenFlag]
      omega))]
    rw [lookup_upsert_ne _ _ _ _ (ne_of_length_ne (by
      simp only [String.length_append, lenAgent, lenOut, lenFlag]
      omega))]
    rw [hno2]
    rfl

/-- Closed instantiation of `collected_id_mismatch` at a concrete state. -/
theorem collected_id_mismatch_witness :
    ∃ res st2, executeInRoom gwFailOpenai threeRoomState "openai" "t" "a" = .ok (res, st2)
      ∧ res.roomId = "openai" ++ "-" ++ toString threeRoomState.now
      ∧ (∃ o ∈ collectOutputs (some st2.files),
          o.executionId = "agent-" ++ res.roomId ∧ o.executionId ≠ res.roomId)
      ∧ readRoomOutput st2 ("agent-" ++ res.roomId) = none
      ∧ isComplete st2 ("agent-" ++ res.roomId) = false :=
  collected_id_mismatch gwFailOpenai threeRoomState "openai" "t" "a"
    ⟨"openai", "rp", "m", "K"⟩ rfl (by decide) rfl rfl
